import Mathlib

/-!
Verification development for the `transporte` repository: a shallow
embedding of the spreadsheet-ingestion pipeline and the query pipeline of
`src/server/index.ts`, together with theorems settling the specification
claims about them.

Machine strings are modelled as `String`/`List Char`; JavaScript numbers
appearing as Excel serial-date values and part numbers are modelled as `Int`
(the claims under study only concern integral values and integer day
arithmetic); JavaScript `Date` objects are modelled by their UTC time value
in milliseconds (`Option Int`, `none` for an Invalid Date).  The two
host-environment text functions with implementation-defined behaviour
(`new Date(string)` parsing and `Date.prototype.toString`) are passed in as
an explicit environment `JsEnv`, so every theorem quantifies over them.
-/

namespace Transporte

/-- The backquote character, written by code point. -/
def backq : Char := Char.ofNat 96

/-- The three-character Markdown fence marker. -/
def tick3 : List Char := List.replicate 3 backq

/-- The opening language-tagged fence: three backquotes followed by `sql`. -/
def tick3sql : List Char := tick3 ++ String.toList "sql"

/-- JavaScript `String.prototype.trim` whitespace class (WhiteSpace and
LineTerminator code points of ECMA-262). -/
def isJsWs (c : Char) : Bool :=
  c == ' ' || c == '\t' || c == '\n' || c == '\r' ||
  c == Char.ofNat 11 || c == Char.ofNat 12 || c == Char.ofNat 160 ||
  c == Char.ofNat 0x2028 || c == Char.ofNat 0x2029 || c == Char.ofNat 0xFEFF

/-- JavaScript `trim` on a character list: drop whitespace from both ends. -/
def trimChars (l : List Char) : List Char :=
  ((l.dropWhile isJsWs).reverse.dropWhile isJsWs).reverse

/-- JavaScript `toLowerCase`, restricted to the ASCII range (sufficient for
the `select`, `;` and `confirmar` checks the source performs). -/
def lowerChars (l : List Char) : List Char :=
  l.map Char.toLower

/-- JavaScript `String.prototype.includes`: does `l` contain `pat` as a
contiguous substring? -/
def containsSub (pat : List Char) : List Char → Bool
  | [] => pat.isEmpty
  | c :: t => pat.isPrefixOf (c :: t) || containsSub pat t

/-- JavaScript `String.prototype.replace` with a global literal pattern and
empty replacement: remove every occurrence of `pat`, scanning left to right
without rescanning replaced positions. -/
def removeAll (pat : List Char) (s : List Char) : List Char :=
  match s with
  | [] => []
  | c :: rest =>
    if h : pat ≠ [] ∧ pat.isPrefixOf (c :: rest) = true then
      removeAll pat (List.drop pat.length (c :: rest))
    else
      c :: removeAll pat rest
termination_by s.length
decreasing_by
  · simp only [List.length_drop, List.length_cons]
    have hp : 0 < pat.length := List.length_pos.mpr h.1
    omega
  · simp

/-- JavaScript `String.prototype.split(";")` segment structure: the list of
semicolon-separated segments, in order. -/
def splitSemis : List Char → List (List Char)
  | [] => [[]]
  | c :: rest =>
    match splitSemis rest with
    | [] => [[c]]
    | h :: t => if c = ';' then [] :: h :: t else (c :: h) :: t

/-- Length of the maximal leading run of backquotes. -/
def leadTicks (l : List Char) : Nat :=
  (l.takeWhile (fun c => c == backq)).length

/-- Convert a count of days since 1970-01-01 to a proleptic-Gregorian UTC
calendar date `(year, month, day)`; this is the arithmetic underlying the
ECMAScript `Date` UTC accessors. -/
def civilFromDays (days : Int) : Int × Int × Int :=
  let z := days + 719468
  let era := Int.fdiv z 146097
  let doe := z - era * 146097
  let yoe := Int.fdiv (doe - Int.fdiv doe 1460 + Int.fdiv doe 36524 - Int.fdiv doe 146096) 365
  let y := yoe + era * 400
  let doy := doe - (365 * yoe + Int.fdiv yoe 4 - Int.fdiv yoe 100)
  let mp := Int.fdiv (5 * doy + 2) 153
  let d := doy - Int.fdiv (153 * mp + 2) 5 + 1
  let m := mp + if mp < 10 then 3 else -9
  (if m ≤ 2 then y + 1 else y, m, d)

/-- Decimal rendering of a natural number left-padded with zeros to width `w`. -/
def padNat (w n : Nat) : String :=
  let s := toString n
  if s.length < w then (List.replicate (w - s.length) '0').asString ++ s else s

/-- The date part of ECMAScript `Date.prototype.toISOString`, as a function of
the day count since the epoch: `YYYY-MM-DD`, with the expanded-year form
`±YYYYYY-MM-DD` outside years 0000–9999. -/
def isoOfDays (days : Int) : String :=
  let c := civilFromDays days
  let y := c.1
  (if 0 ≤ y ∧ y ≤ 9999 then padNat 4 y.toNat
   else if 9999 < y then "+" ++ padNat 6 y.toNat
   else "-" ++ padNat 6 (-y).toNat)
  ++ "-" ++ padNat 2 c.2.1.toNat ++ "-" ++ padNat 2 c.2.2.toNat

/-- `date.toISOString().split('T')[0]` for a valid `Date` with UTC time value
`ms` milliseconds. -/
def isoDateString (ms : Int) : String :=
  isoOfDays (Int.fdiv ms 86400000)

/-- The `${year}-${month}-${day}` string built from `getUTCFullYear`,
`getUTCMonth`+1 and `getUTCDate` with `padStart(2,'0')` on month and day
(the year is not padded), as in the string branch of `excelDateToJSDate`. -/
def ymdUTCString (ms : Int) : String :=
  let c := civilFromDays (Int.fdiv ms 86400000)
  toString c.1 ++ "-" ++ padNat 2 c.2.1.toNat ++ "-" ++ padNat 2 c.2.2.toNat

/-- Largest representable ECMAScript `Date` time value in milliseconds. -/
def maxJsDateMs : Int := 8640000000000000

/-- A raw spreadsheet-cell / JavaScript value as seen by the server code:
`null`, `undefined`, a string, an (integral) number, or a `Date` object whose
UTC time value is `some ms`, or `none` for an Invalid Date. -/
inductive CellValue where
  | nullv : CellValue
  | undef : CellValue
  | str : String → CellValue
  | num : Int → CellValue
  | date : Option Int → CellValue
deriving DecidableEq, Repr

/-- The two host-environment text functions with implementation-defined
behaviour: `new Date(string)` parsing (returning the UTC time value, or
`none` when the result is an Invalid Date) and `Date.prototype.toString`. -/
structure JsEnv where
  parseDate : String → Option Int
  dateToStr : Option Int → String

/-- A fixed environment used to instantiate witnesses. -/
def constEnv : JsEnv :=
  { parseDate := fun _ => none, dateToStr := fun _ => "Invalid Date" }

/-- JavaScript truthiness test on the modelled values: `null`, `undefined`,
the empty string and the number 0 are falsy; `Date` objects are always
truthy. -/
def jsFalsy : CellValue → Bool
  | .nullv => true
  | .undef => true
  | .str s => s == ""
  | .num v => v == 0
  | .date _ => false

/-- JavaScript `String(value)` / `value.toString()` on the modelled values. -/
def jsToString (env : JsEnv) : CellValue → String
  | .nullv => "null"
  | .undef => "undefined"
  | .str s => s
  | .num v => toString v
  | .date t => env.dateToStr t

/-- `excelDateToJSDate` from `src/server/index.ts` lines 206-251: falsy
values map to null; a valid `Date` maps to its ISO date part; a string is
trimmed, mapped to null when it case-insensitively contains `confirmar`,
otherwise parsed by `new Date` and formatted from the UTC calendar fields;
a number below 35000 maps to null, otherwise it is converted by
`new Date(Math.round((v - 25569) * 86400 * 1000))` and formatted by
`toISOString` when the resulting date is valid, null otherwise.  (For the
integral numbers modelled here `Math.round` is the identity.)  The source's
leading `if (!excelValue) return null` guard is distributed into the
branches: it fires exactly for `null`, `undefined`, the empty string and
the number 0; `Date` objects are always truthy. -/
def excelDateToJSDate (env : JsEnv) : CellValue → Option String
  | .nullv => none
  | .undef => none
  | .date (some ms) => some (isoDateString ms)
  | .date none => none
  | .str s =>
    if s == "" then none
    else if containsSub "confirmar".toList (lowerChars (trimChars s.toList)) then none
    else
      match env.parseDate (trimChars s.toList).asString with
      | some ms => some (ymdUTCString ms)
      | none => none
  | .num v =>
    if v == 0 then none
    else if v < 35000 then none
    else if ((v - 25569) * 86400000).natAbs ≤ maxJsDateMs.toNat then
      some (isoDateString ((v - 25569) * 86400000))
    else none

/-- JavaScript `endsWith(".0")`: the last two characters are `.` and `0`. -/
def endsWithDotZero (s : String) : Bool :=
  ['.', '0'].isSuffixOf s.toList

/-- JavaScript `slice(0, -2)`: the string with its last two characters
removed. -/
def dropLast2 (s : String) : String :=
  (s.toList.take (s.toList.length - 2)).asString

/-- `sanitizePn` from `src/server/index.ts` lines 253-262: null/undefined
map to null; otherwise the value is converted to a string and a trailing
`".0"` suffix, when present, is removed by `slice(0, -2)`. -/
def sanitizePn (env : JsEnv) (pnValue : CellValue) : Option String :=
  match pnValue with
  | .nullv => none
  | .undef => none
  | v =>
    let pnString := jsToString env v
    if endsWithDotZero pnString then some (dropLast2 pnString) else some pnString

/-- The calendar date named by the claim for a numeric serial `v`: the date
obtained by adding `v - 25569` days to 1970-01-01 UTC, rendered in ISO form.
Stated from the spec words for comparison with the source function. -/
def specSerialDateStr (v : Int) : String :=
  isoOfDays (v - 25569)

/-- A worksheet row as accessed by the upload handler: the values of its
eleven positional cells (`getCell(1)` … `getCell(11)`, 0-indexed here). -/
def MachineRow : Type := Fin 11 → CellValue

/-- The emptiness test applied to one cell in the upload handler's
`isRowEmpty` check (line 294): `!cell.value || cell.value.toString().trim() === ''`. -/
def cellIsEmpty (env : JsEnv) (c : CellValue) : Bool :=
  jsFalsy c || (trimChars (jsToString env c).toList).isEmpty

/-- The `isRowEmpty` check of the upload handler (lines 291-295): every one
of the eleven positional cells is empty or whitespace-only. -/
def isRowEmpty (env : JsEnv) (row : MachineRow) : Bool :=
  (List.finRange 11).all fun j => cellIsEmpty env (row j)

/-- The per-entry normalization `cell === undefined ? null : cell`
applied at line 315. -/
def undefToNull : CellValue → CellValue
  | .undef => .nullv
  | c => c

/-- Re-inject the result of a helper returning `string | null` as a value. -/
def optToCell : Option String → CellValue
  | some s => .str s
  | none => .nullv

/-- One extracted row tuple, in the column order of the `INSERT` statement. -/
structure RowTuple where
  customs : CellValue
  reference : CellValue
  machine : CellValue
  pn : CellValue
  etb : CellValue
  eta_port : CellValue
  eta_epiroc : CellValue
  ship : CellValue
  division : CellValue
  status : CellValue
  bl : CellValue
deriving DecidableEq, Repr

/-- The `rowData` mapping of the upload handler (lines 302-315): positional
cells to fields, with the machine fallback `row.getCell(3).value || 'Unknown Machine'`,
`sanitizePn` on column 4, `excelDateToJSDate` on columns 5-7, and
`undefined` normalized to `null` in every entry. -/
def rowData (env : JsEnv) (row : MachineRow) : RowTuple where
  customs := undefToNull (row 0)
  reference := undefToNull (row 1)
  machine := undefToNull (if jsFalsy (row 2) then .str "Unknown Machine" else row 2)
  pn := undefToNull (optToCell (sanitizePn env (row 3)))
  etb := undefToNull (optToCell (excelDateToJSDate env (row 4)))
  eta_port := undefToNull (optToCell (excelDateToJSDate env (row 5)))
  eta_epiroc := undefToNull (optToCell (excelDateToJSDate env (row 6)))
  ship := undefToNull (row 7)
  division := undefToNull (row 8)
  status := undefToNull (row 9)
  bl := undefToNull (row 10)

/-- The extraction loop of the upload handler (lines 287-316) over the data
rows (worksheet positions 2..rowCount): skip a row when `isRowEmpty`,
otherwise push its `rowData` tuple, preserving order. -/
def extractRows (env : JsEnv) (rows : List MachineRow) : List RowTuple :=
  rows.filterMap fun row =>
    if isRowEmpty env row then none else some (rowData env row)

/-- The worksheet-level part of the upload handler: the `rowCount < 2` guard
of line 282 (with the source's error message) followed by extraction over
the rows at positions 2 and later. -/
def parseWorksheet (env : JsEnv) (ws : List MachineRow) :
    Except String (List RowTuple) :=
  if ws.length < 2 then .error "Excel file is empty or missing data rows."
  else .ok (extractRows env (ws.drop 1))

/-- `CREATE_MACHINES_TABLE_SQL` from `src/server/index.ts` lines 38-52,
verbatim. -/
def CREATE_MACHINES_TABLE_SQL : String :=
  "\nCREATE TABLE machines (\n  id INTEGER PRIMARY KEY AUTOINCREMENT,\n  customs TEXT,\n  reference TEXT,\n  machine TEXT NOT NULL,\n  pn TEXT,\n  etb DATE,\n  eta_port DATE,\n  eta_epiroc DATE,\n  ship TEXT,\n  division TEXT,\n  status TEXT,\n  bl TEXT\n);"

/-- Number a batch of tuples with the `AUTOINCREMENT` ids a freshly
recreated table assigns: 1 for the first inserted row, 2 for the second, … -/
def numberRows (batch : List RowTuple) : List (Nat × RowTuple) :=
  batch.enum.map fun p => (p.1 + 1, p.2)

/-- Where, if anywhere, the replace operation of the upload handler
(lines 319-369) fails: at the `DROP TABLE`, at the `CREATE TABLE`, at the
insert of the row with the given index, at `stmt.finalize`, at `COMMIT`,
or nowhere. -/
inductive FailPoint where
  | dropStep : FailPoint
  | createStep : FailPoint
  | insertStep : Nat → FailPoint
  | finalizeStep : FailPoint
  | commitStep : FailPoint
  | noFail : FailPoint
deriving DecidableEq, Repr

/-- The machines table's contents: `none` when the table does not exist,
otherwise its rows (id paired with the inserted tuple) in rowid order. -/
def TableState : Type := Option (List (Nat × RowTuple))

/-- The replace operation of the upload handler (lines 319-369) as a
function of the failure scenario.  Drop failure rejects with the prior
table intact; create failure rejects with the table dropped; a failing
insert of row `k` (an index into the batch) triggers `ROLLBACK`, restoring
the state at `BEGIN TRANSACTION` — the freshly recreated empty table; a
finalize or commit failure likewise rolls back to the empty table; on
success the commit publishes the whole batch with sequential ids.  The
boolean records whether the surrounding promise resolved. -/
def runReplace (prior : TableState) (batch : List RowTuple) :
    FailPoint → TableState × Bool
  | .dropStep => (prior, false)
  | .createStep => (none, false)
  | .insertStep k =>
    if k < batch.length then (some [], false) else (some (numberRows batch), true)
  | .finalizeStep => (some [], false)
  | .commitStep => (some [], false)
  | .noFail => (some (numberRows batch), true)

/-- Does the failure scenario describe a failing row insert or a failing
final commit, in the sense of the claim, for the given batch? -/
def insertOrCommitFails (batch : List RowTuple) : FailPoint → Prop
  | .insertStep k => k < batch.length
  | .finalizeStep => True
  | .commitStep => True
  | _ => False

instance : (batch : List RowTuple) → (fp : FailPoint) → Decidable (insertOrCommitFails batch fp)
  | _, .dropStep => isFalse fun h => h
  | _, .createStep => isFalse fun h => h
  | batch, .insertStep k => inferInstanceAs (Decidable (k < batch.length))
  | _, .finalizeStep => isTrue trivial
  | _, .commitStep => isTrue trivial
  | _, .noFail => isFalse fun h => h

/-- `SELECT * FROM machines` against a table state: its rows in stored
order (the empty list when the table does not exist). -/
def selectAllMachines (t : TableState) : List (Nat × RowTuple) :=
  t.getD []

/-- The `rows` field of the upload handler's success response
(line 371): `rowsToInsert.length`. -/
def uploadRowsResponse (batch : List RowTuple) : Nat :=
  batch.length

/-- The trimmed-and-lowercased form of a candidate SQL string computed at
line 403. -/
def lowerTrim (sql : String) : List Char :=
  lowerChars (trimChars sql.toList)

/-- The SQL validation of the query handler (lines 403-406): reject, with
the source's error message, unless the trimmed lower-cased candidate starts
with `select` and splits into a single `;`-separated segment. -/
def sqlSafetyGate (sql : String) : Except String String :=
  if ¬ ("select".toList.isPrefixOf (lowerTrim sql)) ∨ (splitSemis (lowerTrim sql)).length > 1 then
    .error "AI generated potentially unsafe SQL. Only single SELECT statements are allowed."
  else
    .ok sql

/-- The statements the query handler hands to `db.all`: the original
candidate when the gate accepts, nothing when it throws (the throw at
line 405 precedes the `db.all` call at line 409). -/
def executedStatements (sql : String) : List String :=
  match sqlSafetyGate sql with
  | .ok s => [s]
  | .error _ => []

/-- The Markdown-fence stripping of `generateSql` (line 173): remove every
occurrence of `"sql`-fence, then every occurrence of the bare fence, then
trim. -/
def generateSql (generatedText : String) : String :=
  (trimChars (removeAll tick3 (removeAll tick3sql generatedText.toList))).asString

/-- The `translations` table of `server/translations.ts`: the localized
`explanationError` sentence per supported language. -/
def translations (language key : String) : Option String :=
  if key = "explanationError" then
    if language = "es" then some "Encontré los datos, pero no pude generar una explicación."
    else if language = "en" then some "I found the data, but couldn\u0027t generate an explanation."
    else if language = "pt" then some "Encontrei os dados, mas não consegui gerar uma explicação."
    else if language = "sv" then some "Jag hittade datan, men kunde inte generera en förklaring."
    else none
  else none

/-- The supported language codes of `getTranslation`. -/
def supportedLangs : List String := ["es", "en", "pt", "sv"]

/-- `getTranslation` from `server/translations.ts`: select the language if
supported, defaulting to English, and look the key up. -/
def getTranslation (lang key : String) : Option String :=
  let language := if supportedLangs.contains lang then lang else "en"
  translations language key

/-- The `view` field of the query response (lines 424 and 437): `CARD` for
exactly one row, `TABLE` for more than one, absent for zero. -/
def viewOf {α : Type} (rows : List α) : Option String :=
  if rows.length = 1 then some "CARD"
  else if rows.length > 1 then some "TABLE"
  else none

/-- The JSON body of a successful query response. -/
structure QueryResponse (α : Type) where
  data : List α
  sql : String
  directAnswer : Option String
  view : Option String
deriving DecidableEq, Repr

/-- `generateExplanation` (lines 178-201) as a function of the result rows
and of the completion backend's outcome: skipped (null) for an empty result
or one with five or more rows, otherwise the backend's text, or its
failure. -/
def generateExplanationR {α : Type} (data : List α)
    (backend : Except Unit String) : Except Unit (Option String) :=
  if data.length = 0 ∨ 5 ≤ data.length then .ok none
  else backend.map some

/-- The explanation step of the query handler (lines 419-446): on success
respond with the rows, the SQL and the explanation; on an explanation
failure still respond with the rows and the SQL, substituting the localized
`explanationError` fallback. -/
def respondAfterExec {α : Type} (sqlStr : String) (rows : List α)
    (lang : String) (explOutcome : Except Unit (Option String)) :
    QueryResponse α :=
  match explOutcome with
  | .ok ans => { data := rows, sql := sqlStr, directAnswer := ans, view := viewOf rows }
  | .error _ =>
    { data := rows, sql := sqlStr
      directAnswer := getTranslation lang "explanationError", view := viewOf rows }

/-- A concrete row with every cell holding the non-empty string `x`,
used to instantiate witnesses. -/
def exampleFullRow : MachineRow := fun _ => .str "x"

/-- A concrete all-empty row (every cell null), used to instantiate
witnesses. -/
def exampleEmptyRow : MachineRow := fun _ => .nullv

/-- A concrete extracted tuple, used to instantiate witnesses. -/
def exampleTuple : RowTuple :=
  { customs := .nullv, reference := .nullv, machine := .str "M", pn := .nullv
    etb := .nullv, eta_port := .nullv, eta_epiroc := .nullv, ship := .nullv
    division := .nullv, status := .nullv, bl := .nullv }

/-! ### Helper lemmas -/

theorem removeAll_nil (pat : List Char) : removeAll pat [] = [] := by
  rw [removeAll]

theorem removeAll_cons (pat : List Char) (c : Char) (rest : List Char) :
    removeAll pat (c :: rest) =
      if pat ≠ [] ∧ pat.isPrefixOf (c :: rest) = true then
        removeAll pat (List.drop pat.length (c :: rest))
      else c :: removeAll pat rest := by
  rw [removeAll]
  split <;> rfl

theorem isPrefixOf_eq_true_iff {l₁ l₂ : List Char} :
    l₁.isPrefixOf l₂ = true ↔ l₁ <+: l₂ := by
  exact List.isPrefixOf_iff_prefix

theorem containsSub_nil_pat (l : List Char) : containsSub [] l = true := by
  cases l <;> simp [containsSub, List.isPrefixOf]

theorem isPrefixOf_append_ext (pat s t : List Char)
    (h : pat.isPrefixOf s = true) : pat.isPrefixOf (s ++ t) = true :=
  isPrefixOf_eq_true_iff.mpr
    ((isPrefixOf_eq_true_iff.mp h).trans (List.prefix_append s t))

theorem containsSub_append_right (pat s t : List Char)
    (h : containsSub pat t = true) : containsSub pat (s ++ t) = true := by
  induction s with
  | nil => simpa using h
  | cons c s' ih => simp [containsSub, ih]

theorem containsSub_append_left (pat s t : List Char)
    (h : containsSub pat s = true) : containsSub pat (s ++ t) = true := by
  induction s with
  | nil =>
    have : pat = [] := by simpa [containsSub] using h
    subst this
    simpa using containsSub_nil_pat t
  | cons c s' ih =>
    simp only [containsSub, Bool.or_eq_true] at h ⊢
    rcases h with hp | hc
    · left
      have := isPrefixOf_append_ext pat (c :: s') t hp
      simpa [List.cons_append] using this
    · right
      exact ih hc

theorem containsSub_of_middle (pat a m b : List Char)
    (h : containsSub pat m = true) : containsSub pat (a ++ m ++ b) = true := by
  have h1 := containsSub_append_left pat m b h
  have h2 := containsSub_append_right pat a (m ++ b) h1
  simpa [List.append_assoc] using h2

theorem trimChars_decomp (l : List Char) : ∃ a b, l = a ++ trimChars l ++ b := by
  refine ⟨l.takeWhile isJsWs,
    ((l.dropWhile isJsWs).reverse.takeWhile isJsWs).reverse, ?_⟩
  unfold trimChars
  conv_lhs => rw [← List.takeWhile_append_dropWhile (p := isJsWs) (l := l)]
  rw [List.append_assoc]
  congr 1
  calc l.dropWhile isJsWs
      = (l.dropWhile isJsWs).reverse.reverse := (List.reverse_reverse _).symm
    _ = ((l.dropWhile isJsWs).reverse.takeWhile isJsWs
          ++ (l.dropWhile isJsWs).reverse.dropWhile isJsWs).reverse := by
        rw [List.takeWhile_append_dropWhile]
    _ = ((l.dropWhile isJsWs).reverse.dropWhile isJsWs).reverse
          ++ ((l.dropWhile isJsWs).reverse.takeWhile isJsWs).reverse := by
        rw [List.reverse_append]

theorem containsSub_trimChars (pat l : List Char)
    (h : containsSub pat (trimChars l) = true) : containsSub pat l = true := by
  obtain ⟨a, b, hl⟩ := trimChars_decomp l
  rw [hl]
  exact containsSub_of_middle pat a _ b h

theorem leadTicks_cons (c : Char) (l : List Char) :
    leadTicks (c :: l) = if c = backq then leadTicks l + 1 else 0 := by
  by_cases h : c = backq <;> simp [leadTicks, List.takeWhile_cons, h]

theorem replicate_prefix_leadTicks (n : Nat) :
    ∀ l : List Char, (List.replicate n backq).isPrefixOf l = true ↔ n ≤ leadTicks l := by
  induction n with
  | zero => intro l; simp [isPrefixOf_eq_true_iff]
  | succ n ih =>
    intro l
    cases l with
    | nil =>
      simp [List.replicate_succ, isPrefixOf_eq_true_iff, leadTicks]
    | cons c t =>
      constructor
      · intro hp
        have hp' := isPrefixOf_eq_true_iff.mp hp
        rw [List.replicate_succ, List.cons_prefix_cons] at hp'
        obtain ⟨hbc, hpt⟩ := hp'
        rw [leadTicks_cons, if_pos hbc.symm]
        have := (ih t).mp (isPrefixOf_eq_true_iff.mpr hpt)
        omega
      · intro hn
        rw [leadTicks_cons] at hn
        by_cases hc : c = backq
        · rw [if_pos hc] at hn
          apply isPrefixOf_eq_true_iff.mpr
          rw [List.replicate_succ, List.cons_prefix_cons]
          exact ⟨hc.symm, isPrefixOf_eq_true_iff.mp ((ih t).mpr (by omega))⟩
        · rw [if_neg hc] at hn
          omega

theorem tick3_prefix_leadTicks (l : List Char) :
    tick3.isPrefixOf l = true ↔ 3 ≤ leadTicks l :=
  replicate_prefix_leadTicks 3 l

theorem leadTicks_tick3_append (l : List Char) :
    leadTicks (tick3 ++ l) = leadTicks l + 3 := by
  show leadTicks (backq :: backq :: backq :: l) = leadTicks l + 3
  simp [leadTicks_cons]

theorem removeAll_tick3_bound :
    ∀ (n : Nat) (s : List Char), s.length ≤ n →
      leadTicks (removeAll tick3 s) ≤ 2 ∧
      leadTicks (removeAll tick3 s) ≤ leadTicks s ∧
      containsSub tick3 (removeAll tick3 s) = false := by
  intro n
  induction n with
  | zero =>
    intro s hs
    have hz : s = [] := List.length_eq_zero.mp (Nat.le_zero.mp hs)
    subst hz
    refine ⟨by simp [removeAll_nil, leadTicks], by simp [removeAll_nil], ?_⟩
    rw [removeAll_nil]
    decide
  | succ n ih =>
    intro s hs
    cases s with
    | nil =>
      refine ⟨by simp [removeAll_nil, leadTicks], by simp [removeAll_nil], ?_⟩
      rw [removeAll_nil]
      decide
    | cons c rest =>
      rw [removeAll_cons]
      by_cases hpre : tick3.isPrefixOf (c :: rest) = true
      · rw [if_pos ⟨by decide, hpre⟩]
        obtain ⟨l3, hl3⟩ : ∃ l3, c :: rest = tick3 ++ l3 := by
          obtain ⟨l3, h3⟩ := isPrefixOf_eq_true_iff.mp hpre
          exact ⟨l3, h3.symm⟩
        have hdrop : List.drop tick3.length (c :: rest) = l3 := by
          rw [hl3]
          exact List.drop_left tick3 l3
        have hlen : l3.length ≤ n := by
          have hlc := congrArg List.length hl3
          simp [tick3] at hlc
          simp at hs
          omega
        have IH := ih l3 hlen
        rw [hdrop]
        refine ⟨IH.1, ?_, IH.2.2⟩
        rw [hl3, leadTicks_tick3_append]
        omega
      · rw [if_neg (fun hc => hpre hc.2)]
        have hrest : rest.length ≤ n := by simp at hs; omega
        have IH := ih rest hrest
        have hlt : leadTicks (c :: rest) ≤ 2 := by
          by_contra hgt
          exact hpre ((tick3_prefix_leadTicks _).mpr (by omega))
        have hnp : tick3.isPrefixOf (c :: removeAll tick3 rest) = false := by
          apply Bool.eq_false_iff.mpr
          intro hp
          have h3 := (tick3_prefix_leadTicks _).mp hp
          by_cases hc : c = backq
          · rw [leadTicks_cons, if_pos hc] at h3
            rw [leadTicks_cons, if_pos hc] at hlt
            omega
          · rw [leadTicks_cons, if_neg hc] at h3
            omega
        by_cases hc : c = backq
        · rw [leadTicks_cons, if_pos hc] at hlt
          refine ⟨?_, ?_, ?_⟩
          · rw [leadTicks_cons, if_pos hc]; omega
          · rw [leadTicks_cons, if_pos hc, leadTicks_cons, if_pos hc]; omega
          · simp [containsSub, hnp, IH.2.2]
        · refine ⟨?_, ?_, ?_⟩
          · rw [leadTicks_cons, if_neg hc]; omega
          · rw [leadTicks_cons, if_neg hc]; omega
          · simp [containsSub, hnp, IH.2.2]

theorem numberRows_map_snd (batch : List RowTuple) :
    (numberRows batch).map Prod.snd = batch := by
  rw [numberRows, List.map_map]
  have h : (Prod.snd ∘ fun p : Nat × RowTuple => (p.1 + 1, p.2)) = Prod.snd := by
    funext p
    rfl
  rw [h, List.enum_map_snd]

theorem numberRows_map_fst (batch : List RowTuple) :
    (numberRows batch).map Prod.fst = List.range' 1 batch.length := by
  rw [numberRows, List.map_map]
  have h : (Prod.fst ∘ fun p : Nat × RowTuple => (p.1 + 1, p.2))
      = ((fun x => x + 1) ∘ Prod.fst) := by
    funext p
    rfl
  rw [h, ← List.map_map, List.enum_map_fst, List.range'_eq_map_range]
  exact List.map_congr_left (fun a _ => by omega)

theorem mem_numberRows_snd {r : Nat × RowTuple} {batch : List RowTuple}
    (h : r ∈ numberRows batch) : r.2 ∈ batch := by
  have hm := List.mem_map_of_mem Prod.snd h
  rwa [numberRows_map_snd] at hm

theorem splitSemis_length (l : List Char) :
    (splitSemis l).length = l.count ';' + 1 := by
  induction l with
  | nil => rfl
  | cons c rest ih =>
    show (match splitSemis rest with
      | [] => [[c]]
      | h :: t => if c = ';' then [] :: h :: t else (c :: h) :: t).length = _
    cases hs : splitSemis rest with
    | nil => rw [hs] at ih; simp at ih
    | cons h t =>
      rw [hs] at ih
      by_cases hc : c = ';' <;>
        simp [hc, List.count_cons] at ih ⊢ <;> omega

theorem splitSemis_gt_one_iff (l : List Char) :
    (splitSemis l).length > 1 ↔ ';' ∈ l := by
  rw [splitSemis_length]
  constructor
  · intro h
    exact List.count_pos_iff.mp (by omega)
  · intro h
    have := List.count_pos_iff.mpr h
    omega

/-! ### Claim theorems -/

/-- C1: the SQL Safety Gate accepts a candidate SQL string iff, after
trimming and lower-casing, it begins with `select` and contains no `;`
anywhere; when it rejects, the handler fails with the unsafe-query error
and the candidate is never handed to the database. -/
theorem sqlSafetyGate_select_only (sql : String) :
    (sqlSafetyGate sql = .ok sql ↔
      ("select".toList.isPrefixOf (lowerTrim sql) = true ∧ ';' ∉ lowerTrim sql))
    ∧ (¬ ("select".toList.isPrefixOf (lowerTrim sql) = true ∧ ';' ∉ lowerTrim sql) →
      sqlSafetyGate sql =
        .error "AI generated potentially unsafe SQL. Only single SELECT statements are allowed."
      ∧ executedStatements sql = []) := by
  have hsplit := splitSemis_gt_one_iff (lowerTrim sql)
  by_cases hcond : ¬ ("select".toList.isPrefixOf (lowerTrim sql) = true)
      ∨ (splitSemis (lowerTrim sql)).length > 1
  · have hg : sqlSafetyGate sql =
        .error "AI generated potentially unsafe SQL. Only single SELECT statements are allowed." := by
      rw [sqlSafetyGate, if_pos hcond]
    constructor
    · rw [hg]
      constructor
      · intro h
        exact Except.noConfusion h
      · intro ⟨h1, h2⟩
        rcases hcond with hnp | hgt
        · exact absurd h1 hnp
        · exact absurd (hsplit.mp hgt) h2
    · intro _
      refine ⟨hg, ?_⟩
      rw [executedStatements, hg]
  · have h1 : "select".toList.isPrefixOf (lowerTrim sql) = true := by
      by_contra hn
      exact hcond (Or.inl hn)
    have h2 : ';' ∉ lowerTrim sql := by
      intro hm
      exact hcond (Or.inr (hsplit.mpr hm))
    have hg : sqlSafetyGate sql = .ok sql := by
      rw [sqlSafetyGate, if_neg hcond]
    constructor
    · rw [hg]
      exact ⟨fun _ => ⟨h1, h2⟩, fun _ => rfl⟩
    · intro hneg
      exact absurd ⟨h1, h2⟩ hneg

/-- Witness for C1 at a concrete rejected candidate: `DROP TABLE machines`
fails the gate and is never executed. -/
theorem sqlSafetyGate_select_only_witness :
    sqlSafetyGate "DROP TABLE machines" =
      .error "AI generated potentially unsafe SQL. Only single SELECT statements are allowed."
    ∧ executedStatements "DROP TABLE machines" = [] :=
  (sqlSafetyGate_select_only "DROP TABLE machines").2 (by decide)

/-- C5: a date cell holding text that, after trimming, case-insensitively
contains the token `confirmar` is normalized to null. -/
theorem excelDateToJSDate_confirmar (env : JsEnv) (s : String)
    (h : containsSub "confirmar".toList (lowerChars (trimChars s.toList)) = true) :
    excelDateToJSDate env (.str s) = none := by
  by_cases hf : (s == "") = true
  · simp only [excelDateToJSDate]
    rw [if_pos hf]
  · simp only [excelDateToJSDate]
    rw [if_neg hf, if_pos h]

/-- Witness for C5 at the concrete cell text used in the spec scenario. -/
theorem excelDateToJSDate_confirmar_witness :
    excelDateToJSDate constEnv (.str " Por CONFIRMAR ") = none :=
  excelDateToJSDate_confirmar constEnv " Por CONFIRMAR " (by decide)

/-- C6: for every non-null, non-undefined part-number value, `sanitizePn`
returns its string form with a trailing `.0` (exactly two characters)
removed when present, and the string form unchanged otherwise; null and
undefined map to null. -/
theorem sanitizePn_strips_dot_zero (env : JsEnv) (v : CellValue)
    (h1 : v ≠ .nullv) (h2 : v ≠ .undef) :
    sanitizePn env v =
      some (if endsWithDotZero (jsToString env v)
            then dropLast2 (jsToString env v) else jsToString env v)
    ∧ sanitizePn env .nullv = none ∧ sanitizePn env .undef = none := by
  refine ⟨?_, rfl, rfl⟩
  cases v with
  | nullv => exact absurd rfl h1
  | undef => exact absurd rfl h2
  | str s =>
    by_cases he : endsWithDotZero (jsToString env (.str s)) = true
    · simp [sanitizePn, he]
    · simp [sanitizePn, he]
  | num n =>
    by_cases he : endsWithDotZero (jsToString env (.num n)) = true
    · simp [sanitizePn, he]
    · simp [sanitizePn, he]
  | date t =>
    by_cases he : endsWithDotZero (jsToString env (.date t)) = true
    · simp [sanitizePn, he]
    · simp [sanitizePn, he]

/-- Witness for C6: the numeric-artifact string `404.0` is stored as `404`. -/
theorem sanitizePn_strips_dot_zero_witness :
    sanitizePn constEnv (.str "404.0") = some "404" := by
  have h := (sanitizePn_strips_dot_zero constEnv (.str "404.0")
    (by decide) (by decide)).1
  rw [h]
  decide

/-- C7: a data row whose eleven positional cells are all empty or
whitespace-only is skipped: it contributes no tuple, raises no error, and
extraction continues with the surrounding rows. -/
theorem extractRows_skips_empty (env : JsEnv) (header : MachineRow)
    (pre post : List MachineRow) (r : MachineRow)
    (h : isRowEmpty env r = true) :
    extractRows env (pre ++ r :: post) = extractRows env pre ++ extractRows env post
    ∧ parseWorksheet env (header :: (pre ++ r :: post)) =
        .ok (extractRows env pre ++ extractRows env post) := by
  have h1 : extractRows env (pre ++ r :: post)
      = extractRows env pre ++ extractRows env post := by
    simp [extractRows, List.filterMap_append, h]
  refine ⟨h1, ?_⟩
  have h2 : ¬ ((header :: (pre ++ r :: post)).length < 2) := by
    simp
    omega
  rw [parseWorksheet, if_neg h2]
  simp only [List.drop_succ_cons, List.drop_zero]
  rw [h1]

/-- Witness for C7: a concrete two-row sheet where the second data row is
all-empty extracts only the first data row. -/
theorem extractRows_skips_empty_witness :
    extractRows constEnv [exampleFullRow, exampleEmptyRow]
      = extractRows constEnv [exampleFullRow] ++ extractRows constEnv []
    ∧ parseWorksheet constEnv (exampleFullRow :: ([exampleFullRow] ++ exampleEmptyRow :: []))
      = .ok (extractRows constEnv [exampleFullRow] ++ extractRows constEnv []) := by
  have h := extractRows_skips_empty constEnv exampleFullRow
    [exampleFullRow] [] exampleEmptyRow (by decide)
  simpa using h

/-- C8: every emitted row tuple has a non-null, non-undefined, non-empty
machine field; whenever the raw column-3 value is falsy the sentinel
`Unknown Machine` is substituted; and the table schema declares the machine
column `NOT NULL`. -/
theorem machine_never_empty (env : JsEnv) (rows : List MachineRow) :
    (∀ t ∈ extractRows env rows,
      t.machine ≠ .nullv ∧ t.machine ≠ .undef ∧ t.machine ≠ .str "")
    ∧ (∀ row : MachineRow, jsFalsy (row 2) = true →
      (rowData env row).machine = .str "Unknown Machine")
    ∧ containsSub "machine TEXT NOT NULL".toList CREATE_MACHINES_TABLE_SQL.toList = true := by
  refine ⟨?_, ?_, by decide⟩
  · intro t ht
    rw [extractRows, List.mem_filterMap] at ht
    obtain ⟨row, _, heq⟩ := ht
    by_cases hempty : isRowEmpty env row = true
    · simp [hempty] at heq
    · simp [hempty] at heq
      subst heq
      by_cases hf : jsFalsy (row 2) = true
      · simp [rowData, hf, undefToNull]
      · cases hc : row 2 with
        | nullv => rw [hc] at hf; exact absurd rfl hf
        | undef => rw [hc] at hf; exact absurd rfl hf
        | str s =>
          rw [hc] at hf
          have hs : s ≠ "" := by
            intro he
            exact hf (by simp [jsFalsy, he])
          simp [rowData, hc, jsFalsy, hs, undefToNull]
        | num n =>
          rw [hc] at hf
          have hn : n ≠ 0 := by
            intro he
            exact hf (by simp [jsFalsy, he])
          simp [rowData, hc, jsFalsy, hn, undefToNull]
        | date d => simp [rowData, hc, jsFalsy, undefToNull]
  · intro row hf
    simp [rowData, hf, undefToNull]

/-- Witness for C8 at a concrete extracted row with every cell `x`. -/
theorem machine_never_empty_witness :
    (rowData constEnv exampleFullRow).machine ≠ .nullv
    ∧ (rowData constEnv exampleFullRow).machine ≠ .undef
    ∧ (rowData constEnv exampleFullRow).machine ≠ .str "" :=
  (machine_never_empty constEnv [exampleFullRow]).1
    (rowData constEnv exampleFullRow) (by decide)

/-- C9: when the approved SQL yields between 1 and 4 rows and the
explanation backend fails, the request still succeeds: the response carries
the rows and the SQL unchanged with the localized `explanationError`
fallback substituted, selected by the caller-supplied language code and
defaulting to English when the code is unsupported. -/
theorem query_fallback_on_explanation_failure {α : Type} (sqlStr : String)
    (rows : List α) (lang : String)
    (h1 : 1 ≤ rows.length) (h2 : rows.length ≤ 4) :
    respondAfterExec sqlStr rows lang (generateExplanationR rows (.error ())) =
      { data := rows, sql := sqlStr,
        directAnswer := getTranslation lang "explanationError", view := viewOf rows }
    ∧ (supportedLangs.contains lang = true →
      getTranslation lang "explanationError" = translations lang "explanationError")
    ∧ (supportedLangs.contains lang = false →
      getTranslation lang "explanationError" =
        some "I found the data, but couldn't generate an explanation.")
    ∧ (getTranslation lang "explanationError").isSome = true := by
  have hexpl : generateExplanationR rows (Except.error () : Except Unit String)
      = .error () := by
    rw [generateExplanationR, if_neg (by omega)]
    rfl
  refine ⟨?_, ?_, ?_, ?_⟩
  · rw [hexpl]
    rfl
  · intro hs
    have hmem : lang ∈ supportedLangs := by simpa using hs
    simp [getTranslation, hmem]
  · intro hs
    have hmem : lang ∉ supportedLangs := by simpa using hs
    simp [getTranslation, translations, hmem]
  · by_cases hs : supportedLangs.contains lang = true
    · have hmem : lang = "es" ∨ lang = "en" ∨ lang = "pt" ∨ lang = "sv" := by
        simpa [supportedLangs] using hs
      rcases hmem with h | h | h | h <;> subst h <;> decide
    · have hs' : supportedLangs.contains lang = false := by
        cases h : supportedLangs.contains lang
        · rfl
        · exact absurd h hs
      have hmem : lang ∉ supportedLangs := by simpa using hs'
      simp [getTranslation, translations, hmem]

/-- Witness for C9: one result row, an unsupported language code `fr`, a
failing backend — the response still carries the row, the SQL, the English
fallback and the `CARD` view. -/
theorem query_fallback_witness :
    respondAfterExec "SELECT 1" ([0] : List Nat) "fr"
        (generateExplanationR ([0] : List Nat) (.error ())) =
      { data := [0], sql := "SELECT 1",
        directAnswer := some "I found the data, but couldn't generate an explanation.",
        view := some "CARD" } := by
  have h := query_fallback_on_explanation_failure "SELECT 1" ([0] : List Nat) "fr"
    (by decide) (by decide)
  rw [h.1, h.2.2.1 (by decide)]
  decide

/-- C2: if a row insert or the final commit fails, the replace operation
rejects and leaves the machines table in its prior state or in the
recreated-but-empty state; and in every reachable outcome, the table is
either exactly the prior table or holds only rows of the new batch — never
a mixture. -/
theorem replace_rollback_atomic (prior : TableState) (batch : List RowTuple)
    (fp : FailPoint) :
    (insertOrCommitFails batch fp →
      (runReplace prior batch fp).2 = false ∧
      ((runReplace prior batch fp).1 = prior ∨ (runReplace prior batch fp).1 = some []))
    ∧ ((runReplace prior batch fp).1 = prior ∨
      ∀ r ∈ selectAllMachines (runReplace prior batch fp).1, r.2 ∈ batch) := by
  cases fp with
  | dropStep => exact ⟨fun h => absurd h (fun h => h), Or.inl rfl⟩
  | createStep =>
    refine ⟨fun h => absurd h (fun h => h), Or.inr ?_⟩
    intro r hr
    simp [runReplace, selectAllMachines] at hr
  | insertStep k =>
    by_cases hk : k < batch.length
    · refine ⟨fun _ => ?_, Or.inr ?_⟩
      · simp [runReplace, hk]
      · intro r hr
        simp [runReplace, hk, selectAllMachines] at hr
    · refine ⟨fun h => absurd h hk, Or.inr ?_⟩
      intro r hr
      simp [runReplace, hk, selectAllMachines] at hr
      exact mem_numberRows_snd hr
  | finalizeStep =>
    refine ⟨fun _ => by simp [runReplace], Or.inr ?_⟩
    intro r hr
    simp [runReplace, selectAllMachines] at hr
  | commitStep =>
    refine ⟨fun _ => by simp [runReplace], Or.inr ?_⟩
    intro r hr
    simp [runReplace, selectAllMachines] at hr
  | noFail =>
    refine ⟨fun h => absurd h (fun h => h), Or.inr ?_⟩
    intro r hr
    simp [runReplace, selectAllMachines] at hr
    exact mem_numberRows_snd hr

/-- Witness for C2: a one-row batch whose only insert fails, against a
non-empty prior table — the operation rejects and the table is prior or
empty. -/
theorem replace_rollback_atomic_witness :
    (runReplace (some [(1, exampleTuple)]) [exampleTuple] (.insertStep 0)).2 = false
    ∧ ((runReplace (some [(1, exampleTuple)]) [exampleTuple] (.insertStep 0)).1
        = some [(1, exampleTuple)]
      ∨ (runReplace (some [(1, exampleTuple)]) [exampleTuple] (.insertStep 0)).1
        = some []) :=
  (replace_rollback_atomic (some [(1, exampleTuple)]) [exampleTuple]
    (.insertStep 0)).1 (by show (0 : Nat) < List.length [exampleTuple]; decide)

/-- C3: after a successful upload, `SELECT * FROM machines` returns exactly
the tuples the Row Extractor produced, in insertion order, with ids
1, 2, 3, …, and the response's row count equals the number of tuples
extracted and inserted. -/
theorem upload_roundtrip (env : JsEnv) (prior : TableState) (ws : List MachineRow) :
    selectAllMachines (runReplace prior (extractRows env (ws.drop 1)) .noFail).1
      = numberRows (extractRows env (ws.drop 1))
    ∧ (numberRows (extractRows env (ws.drop 1))).map Prod.snd
      = extractRows env (ws.drop 1)
    ∧ (numberRows (extractRows env (ws.drop 1))).map Prod.fst
      = List.range' 1 (extractRows env (ws.drop 1)).length
    ∧ (runReplace prior (extractRows env (ws.drop 1)) .noFail).2 = true
    ∧ uploadRowsResponse (extractRows env (ws.drop 1))
      = (selectAllMachines (runReplace prior (extractRows env (ws.drop 1)) .noFail).1).length := by
  refine ⟨rfl, numberRows_map_snd _, numberRows_map_fst _, rfl, ?_⟩
  show (extractRows env (ws.drop 1)).length
    = (numberRows (extractRows env (ws.drop 1))).length
  simp [numberRows]

/-- C4 counterexample: the claim as stated — every numeric value at or
above 35000 converts to the serial date string — fails at `v = 10^9`,
where the computed time value exceeds the representable `Date` range and
the code returns null instead. -/
theorem excelSerial_claim_counterexample :
    ¬ (∀ (env : JsEnv) (v : Int), 35000 ≤ v →
      excelDateToJSDate env (.num v) = some (specSerialDateStr v)) := by
  intro hAll
  have h := hAll constEnv 1000000000 (by norm_num)
  have hn : excelDateToJSDate constEnv (.num 1000000000) = none := by decide
  rw [hn] at h
  exact Option.noConfusion h

/-- C4 (amended): a numeric date-cell value below 35000 normalizes to null;
a value at or above 35000 normalizes to the ISO string of the UTC date
obtained by adding `v - 25569` days to 1970-01-01 when the computed
millisecond value is within the representable `Date` range, and to null
when it is out of range. -/
theorem excelSerial_threshold_range (env : JsEnv) (v : Int) :
    (v < 35000 → excelDateToJSDate env (.num v) = none)
    ∧ (35000 ≤ v →
      excelDateToJSDate env (.num v) =
        if ((v - 25569) * 86400000).natAbs ≤ maxJsDateMs.toNat
        then some (specSerialDateStr v) else none) := by
  constructor
  · intro hv
    by_cases h0 : (v == 0) = true
    · simp only [excelDateToJSDate]
      rw [if_pos h0]
    · simp only [excelDateToJSDate]
      rw [if_neg h0, if_pos hv]
  · intro hv
    have h0 : (v == 0) = false := by
      simp only [beq_eq_false_iff_ne, ne_eq]
      omega
    have hnlt : ¬ (v < 35000) := by omega
    simp only [excelDateToJSDate]
    rw [if_neg (by rw [h0]; exact Bool.false_ne_true), if_neg hnlt]
    have hq : Int.fdiv ((v - 25569) * 86400000) 86400000 = v - 25569 :=
      Int.mul_fdiv_cancel _ (by norm_num)
    rw [isoDateString, hq, specSerialDateStr]

/-- Witness for C4 (amended): serial 45000 is in range and converts to
2023-03-15. -/
theorem excelSerial_threshold_range_witness :
    excelDateToJSDate constEnv (.num 45000) = some "2023-03-15" := by
  have h := (excelSerial_threshold_range constEnv 45000).2 (by norm_num)
  rw [h]
  decide

/-- C10: the candidate SQL is the backend's raw text with every `sql`-tagged
fence removed, then every bare fence removed, then trimmed; consequently it
never contains a fence marker anywhere. -/
theorem generateSql_strips_fences (t : String) :
    generateSql t = (trimChars (removeAll tick3 (removeAll tick3sql t.toList))).asString
    ∧ containsSub tick3 (generateSql t).toList = false := by
  refine ⟨rfl, ?_⟩
  have hround : (generateSql t).toList
      = trimChars (removeAll tick3 (removeAll tick3sql t.toList)) := rfl
  rw [hround]
  have hmain := (removeAll_tick3_bound (removeAll tick3sql t.toList).length
    (removeAll tick3sql t.toList) le_rfl).2.2
  cases hcs : containsSub tick3 (trimChars (removeAll tick3 (removeAll tick3sql t.toList))) with
  | false => rfl
  | true =>
    have hup := containsSub_trimChars tick3 _ hcs
    rw [hmain] at hup
    exact Bool.noConfusion hup

end Transporte
